import Mathlib

/-
  Verification of the gene-symbol resolution core of the ICGI repository
  (src/code/gene_to_id.py), as a shallow embedding.

  The Python script iterates over a list of gene symbols.  For each symbol it
  calls ESearch (returning an ordered list of candidate Entrez Gene ids) and
  then disambiguates:
    - zero candidates: the symbol is appended to genes_None.txt;
    - one candidate: the record is fetched; if it carries a discontinue-date
      marker the script logs a message that references the variable
      check_gene_id (which is only ever bound by the multi-candidate loop) and
      would append the symbol to genes_NCBI_Discontinued_1.txt; otherwise the
      candidate is accepted;
    - two or more candidates: gene_id is initialised to the first candidate
      (the fallback), then each candidate is fetched in relevance order:
      discontinued candidates are skipped (logged into
      genes_NCBI_Discontinued_2.txt), a candidate whose first official symbol
      equals the input symbol empties the alias list, becomes gene_id and
      breaks the loop, and otherwise a candidate listing the symbol among its
      aliases is appended to candidate_gene_id; after the loop, if the alias
      list is non-empty its first element becomes gene_id.
  The accepted gene_id is written into gene_id_dict.  Every exception raised
  inside the per-symbol body (including network retry exhaustion and the
  NameError caused by the unbound check_gene_id) is caught by a broad handler
  that appends the symbol to genes_None.txt and moves on to the next symbol.

  The embedding below models the remote service as a DataSource (a search
  function and a fetch function, both fallible), the per-symbol body as
  resolveGene (which also records the ids actually fetched and the leaked
  check_gene_id binding), and the whole run as a fold over the symbol list.
-/

namespace GeneToId

/-- A parsed EFetch record: the discontinue-date marker, the texts of the
Gene-ref_locus nodes (official symbols, in document order) and the texts of
the Gene-ref_syn_E nodes (aliases). -/
structure GeneRecord where
  discontinued : Bool
  official : List String
  aliases : List String
  deriving DecidableEq

/-- The remote service: ESearch returns the ordered candidate id list for a
symbol, EFetch returns the record of one id.  An `Except.error` models an
exception escaping the retry-wrapped call (exhausted retries or a parse
failure); the string is the cause. -/
structure DataSource where
  search : String → Except String (List String)
  fetch : String → Except String GeneRecord

/-- What happens to one symbol: accepted into gene_id_dict, appended to
genes_None.txt because the id list was empty, appended to
genes_NCBI_Discontinued_1.txt as a sole discontinued candidate, or an
exception caught by the broad per-symbol handler (also genes_None.txt). -/
inductive GeneOutcome where
  | resolved (id : String)
  | noCandidates
  | soleDiscontinued (id : String)
  | failure (cause : String)
  deriving DecidableEq

/-- The message of the exception raised at line 140 of gene_to_id.py when the
log f-string reads check_gene_id before the multi-candidate loop has ever
bound it. -/
def nameErrorMsg : String := "NameError: check_gene_id is not defined"

deriving instance DecidableEq for Except

/-- State produced by the multi-candidate loop: the final binding of the loop
variable check_gene_id, the ids passed to call_efetch in order, the
gene__id pairs appended to genes_NCBI_Discontinued_2.txt, and either the
escaping exception or the pair (gene_id, candidate_gene_id) left by the
loop. -/
structure MultiRes where
  lastCheck : Option String
  fetched : List String
  disc2 : List (String × String)
  out : Except String (String × List String)
  deriving DecidableEq

/-- The loop `for check_gene_id in ids_list` of gene_to_id.py (lines
154-214): fetch each candidate; skip discontinued ones; on the first
non-discontinued candidate whose first official symbol equals the input
symbol, clear candidate_gene_id, set gene_id to it and break; otherwise
append alias matches to candidate_gene_id.  Arguments after the candidate
list: gene_id, candidate_gene_id, check_gene_id, fetch trace,
discontinued-2 log. -/
def multiLoop (ds : DataSource) (gene : String) :
    List String → String → List String → Option String → List String →
    List (String × String) → MultiRes
  | [], gid, cand, lc, tr, d2 => ⟨lc, tr, d2, Except.ok (gid, cand)⟩
  | c :: rest, gid, cand, _lc, tr, d2 =>
    match ds.fetch c with
    | Except.error e => ⟨some c, tr ++ [c], d2, Except.error e⟩
    | Except.ok rec =>
      if rec.discontinued then
        multiLoop ds gene rest gid cand (some c) (tr ++ [c]) (d2 ++ [(gene, c)])
      else if rec.official.head? = some gene then
        ⟨some c, tr ++ [c], d2, Except.ok (c, [])⟩
      else if gene ∈ rec.aliases then
        multiLoop ds gene rest gid (cand ++ [c]) (some c) (tr ++ [c]) d2
      else
        multiLoop ds gene rest gid cand (some c) (tr ++ [c]) d2

/-- Lines 216-222 of gene_to_id.py: after the loop, if candidate_gene_id is
non-empty its first element replaces gene_id; the result goes into
gene_id_dict.  An escaped exception becomes a failure outcome. -/
def multiOutcome : Except String (String × List String) → GeneOutcome
  | Except.error e => GeneOutcome.failure e
  | Except.ok (gid, []) => GeneOutcome.resolved gid
  | Except.ok (_, c :: _) => GeneOutcome.resolved c

/-- Effect of processing one symbol: the new binding of check_gene_id, the
ids fetched, the genes_NCBI_Discontinued_2.txt entries, and the outcome. -/
structure GeneStep where
  lastCheck : Option String
  fetched : List String
  disc2 : List (String × String)
  outcome : GeneOutcome
  deriving DecidableEq

/-- The body of the per-symbol try block of gene_to_id.py (lines 111-226),
given the current binding of check_gene_id (lc) left by previous
iterations of the outer loop. -/
def resolveGene (ds : DataSource) (lc : Option String) (gene : String) :
    GeneStep :=
  match ds.search gene with
  | Except.error e => ⟨lc, [], [], GeneOutcome.failure e⟩
  | Except.ok [] => ⟨lc, [], [], GeneOutcome.noCandidates⟩
  | Except.ok [gid] =>
    match ds.fetch gid with
    | Except.error e => ⟨lc, [gid], [], GeneOutcome.failure e⟩
    | Except.ok rec =>
      if rec.discontinued then
        match lc with
        | none => ⟨lc, [gid], [], GeneOutcome.failure nameErrorMsg⟩
        | some _ => ⟨lc, [gid], [], GeneOutcome.soleDiscontinued gid⟩
      else ⟨lc, [gid], [], GeneOutcome.resolved gid⟩
  | Except.ok (c0 :: c1 :: rest) =>
    let r := multiLoop ds gene (c0 :: c1 :: rest) c0 [] lc [] []
    ⟨r.lastCheck, r.fetched, r.disc2, multiOutcome r.out⟩

/-- The accumulated state of the outer loop: gene_id_dict, genes_None.txt,
genes_NCBI_Discontinued_1.txt, genes_NCBI_Discontinued_2.txt, the leaked
check_gene_id binding, and the ordered per-symbol outcome trace. -/
structure RunState where
  geneIdDict : List (String × String)
  genesNone : List String
  disc1 : List (String × String)
  disc2 : List (String × String)
  lastCheck : Option String
  outcomes : List (String × GeneOutcome)
  deriving DecidableEq

def initState : RunState := ⟨[], [], [], [], none, []⟩

/-- Assignment `gene_id_dict[gene] = gene_id`: replaces any earlier binding
of the key. -/
def dictInsert (l : List (String × String)) (g i : String) :
    List (String × String) :=
  l.filter (fun p => decide (p.1 ≠ g)) ++ [(g, i)]

/-- One iteration of `for gene in all_genes`. -/
def step (ds : DataSource) (st : RunState) (gene : String) : RunState :=
  let r := resolveGene ds st.lastCheck gene
  let base : RunState :=
    { st with
      lastCheck := r.lastCheck
      disc2 := st.disc2 ++ r.disc2
      outcomes := st.outcomes ++ [(gene, r.outcome)] }
  match r.outcome with
  | GeneOutcome.resolved gid =>
      { base with geneIdDict := dictInsert base.geneIdDict gene gid }
  | GeneOutcome.noCandidates =>
      { base with genesNone := base.genesNone ++ [gene] }
  | GeneOutcome.soleDiscontinued gid =>
      { base with disc1 := base.disc1 ++ [(gene, gid)] }
  | GeneOutcome.failure _ =>
      { base with genesNone := base.genesNone ++ [gene] }

/-- The whole run of gene_to_id.py over a symbol list. -/
def runGenes (ds : DataSource) (genes : List String) : RunState :=
  genes.foldl (step ds) initState

def isResolvedOutcome : GeneOutcome → Bool
  | GeneOutcome.resolved _ => true
  | _ => false

/-- Whether a symbol ends up accepted into gene_id_dict (shown below to be
independent of the leaked check_gene_id binding). -/
def resolves (ds : DataSource) (g : String) : Bool :=
  isResolvedOutcome (resolveGene ds none g).outcome

/-- The alias-match test applied to non-discontinued candidates. -/
def aliasHit (recs : String → GeneRecord) (sym : String) (c : String) : Bool :=
  !(recs c).discontinued && decide (sym ∈ (recs c).aliases)

/-! ## The tenacity retry policy on call_esearch and call_efetch

Both network calls are wrapped in
`@retry(stop=stop_after_attempt(6), wait=wait_fixed(3),
retry=retry_if_exception_type(requests.RequestException))`.
One attempt either succeeds, raises a `requests.RequestException`
(connection error, timeout, or the non-2xx status turned into an
`HTTPError` by `raise_for_status`), or raises some other exception. -/

/-- Outcome of one attempt of the wrapped call. -/
inductive AttemptResult where
  | ok
  | transient
  | other
  deriving DecidableEq

/-- How a retry-wrapped call terminates: the call succeeds, tenacity raises
its retry-exhaustion error, or a non-retryable exception propagates. -/
inductive RetryOutcome where
  | success
  | exhausted
  | propagated
  deriving DecidableEq

/-- Observable behaviour of one retry-wrapped call: how many attempts were
made, the waits inserted between consecutive attempts, and how it ended. -/
structure RetryTrace where
  attempts : Nat
  waits : List Nat
  outcome : RetryOutcome
  deriving DecidableEq

/-- The tenacity loop: `n` attempts already made, `fuel` attempts still
allowed.  A transient failure with remaining budget waits `w` and retries;
a transient failure on the last allowed attempt raises the exhaustion
error; any other exception propagates at once. -/
def retryAux (f : Nat → AttemptResult) (w : Nat) : Nat → Nat → RetryTrace
  | n, 0 => ⟨n, [], RetryOutcome.exhausted⟩
  | n, fuel + 1 =>
    match f n with
    | AttemptResult.ok => ⟨n + 1, [], RetryOutcome.success⟩
    | AttemptResult.other => ⟨n + 1, [], RetryOutcome.propagated⟩
    | AttemptResult.transient =>
      if fuel = 0 then ⟨n + 1, [], RetryOutcome.exhausted⟩
      else
        let r := retryAux f w (n + 1) fuel
        ⟨r.attempts, w :: r.waits, r.outcome⟩

/-- stop_after_attempt(6) in both decorators. -/
def retryStopAttempts : Nat := 6

/-- wait_fixed(3) in both decorators. -/
def retryWaitSeconds : Nat := 3

/-- The retry policy both decorators attach. -/
def tenacityRetry (f : Nat → AttemptResult) : RetryTrace :=
  retryAux f retryWaitSeconds 0 retryStopAttempts

/-- The policy as attached to call_esearch (lines 9-16). -/
def call_esearch_retry : (Nat → AttemptResult) → RetryTrace := tenacityRetry

/-- The policy as attached to call_efetch (lines 61-66). -/
def call_efetch_retry : (Nat → AttemptResult) → RetryTrace := tenacityRetry

/-! ## Concrete data sources used for counterexamples and witnesses -/

/-- Candidates for X: rank 0 non-discontinued (official A, alias X), rank 1
discontinued with official symbol X, rank 2 non-discontinued (official B). -/
def dsA : DataSource :=
  ⟨fun s => if s = "X" then Except.ok ["1", "2", "3"] else Except.ok [],
   fun i =>
     if i = "1" then Except.ok ⟨false, ["A"], ["X"]⟩
     else if i = "2" then Except.ok ⟨true, ["X"], []⟩
     else if i = "3" then Except.ok ⟨false, ["B"], []⟩
     else Except.error "no record"⟩

/-- Candidates for X: rank 0 non-discontinued alias match, rank 1
non-discontinued exact official match. -/
def dsB : DataSource :=
  ⟨fun s => if s = "X" then Except.ok ["1", "2"] else Except.ok [],
   fun i =>
     if i = "1" then Except.ok ⟨false, ["A"], ["X"]⟩
     else if i = "2" then Except.ok ⟨false, ["X"], []⟩
     else Except.error "no record"⟩

/-- The record table shared by dsB-style witnesses. -/
def recsB : String → GeneRecord := fun i =>
  if i = "1" then ⟨false, ["A"], ["X"]⟩
  else if i = "2" then ⟨false, ["X"], []⟩
  else ⟨false, [], []⟩

/-- Candidates for X: rank 0 discontinued, rank 1 non-discontinued with no
official or alias match; the fallback is the discontinued rank-0 id. -/
def dsC : DataSource :=
  ⟨fun s => if s = "X" then Except.ok ["1", "2"] else Except.ok [],
   fun i =>
     if i = "1" then Except.ok ⟨true, ["A"], []⟩
     else if i = "2" then Except.ok ⟨false, ["B"], []⟩
     else Except.error "no record"⟩

/-- The record table of dsC. -/
def recsC : String → GeneRecord := fun i =>
  if i = "1" then ⟨true, ["A"], []⟩
  else if i = "2" then ⟨false, ["B"], []⟩
  else ⟨false, [], []⟩

/-- Same shape as dsC, used for the C3 counterexample. -/
def dsD : DataSource :=
  ⟨fun s => if s = "X" then Except.ok ["1", "2"] else Except.ok [],
   fun i =>
     if i = "1" then Except.ok ⟨true, ["A"], []⟩
     else if i = "2" then Except.ok ⟨false, ["B"], []⟩
     else Except.error "no record"⟩

/-- Candidates for X: rank 0 discontinued alias carrier (skipped), rank 1
non-discontinued alias match, rank 2 non-discontinued alias match ranked
later. -/
def dsE : DataSource :=
  ⟨fun s => if s = "X" then Except.ok ["1", "2", "3"] else Except.ok [],
   fun i =>
     if i = "1" then Except.ok ⟨true, ["A"], ["X"]⟩
     else if i = "2" then Except.ok ⟨false, ["B"], ["X"]⟩
     else if i = "3" then Except.ok ⟨false, ["C"], ["X"]⟩
     else Except.error "no record"⟩

/-- The record table of dsE. -/
def recsE : String → GeneRecord := fun i =>
  if i = "1" then ⟨true, ["A"], ["X"]⟩
  else if i = "2" then ⟨false, ["B"], ["X"]⟩
  else if i = "3" then ⟨false, ["C"], ["X"]⟩
  else ⟨false, [], []⟩

/-- S has a sole discontinued candidate. -/
def dsF : DataSource :=
  ⟨fun s => if s = "S" then Except.ok ["9"] else Except.ok [],
   fun i =>
     if i = "9" then Except.ok ⟨true, ["S"], []⟩
     else Except.error "no record"⟩

/-- M has two candidates resolved by exact match; S has a sole discontinued
candidate. -/
def dsG : DataSource :=
  ⟨fun s =>
     if s = "M" then Except.ok ["1", "2"]
     else if s = "S" then Except.ok ["9"]
     else Except.ok [],
   fun i =>
     if i = "1" then Except.ok ⟨false, ["M"], []⟩
     else if i = "2" then Except.ok ⟨false, ["Z"], []⟩
     else if i = "9" then Except.ok ⟨true, ["S"], []⟩
     else Except.error "no record"⟩

/-- A resolves, the search for B exhausts its retries, C has no candidates. -/
def dsH : DataSource :=
  ⟨fun s =>
     if s = "A" then Except.ok ["1"]
     else if s = "B" then Except.error "ExhaustedRetries"
     else Except.ok [],
   fun i =>
     if i = "1" then Except.ok ⟨false, ["A"], []⟩
     else Except.error "no record"⟩

/-- P has a sole healthy candidate; S has a sole discontinued candidate. -/
def dsJ : DataSource :=
  ⟨fun s =>
     if s = "P" then Except.ok ["5"]
     else if s = "S" then Except.ok ["9"]
     else Except.ok [],
   fun i =>
     if i = "5" then Except.ok ⟨false, ["P"], []⟩
     else if i = "9" then Except.ok ⟨true, ["S"], []⟩
     else Except.error "no record"⟩

/-! ## Helper lemmas -/

theorem retryAux_allTransient (f : Nat → AttemptResult) (w : Nat)
    (hf : ∀ n, f n = AttemptResult.transient) :
    ∀ (fuel n : Nat), retryAux f w n (fuel + 1) =
      ⟨n + (fuel + 1), List.replicate fuel w, RetryOutcome.exhausted⟩ := by
  intro fuel
  induction fuel with
  | zero => intro n; simp [retryAux, hf n]
  | succ m ih =>
    intro n
    rw [retryAux]
    rw [hf n]
    simp only [Nat.succ_ne_zero, if_false, ih (n + 1), List.replicate_succ]
    apply congrArg (fun a => RetryTrace.mk a (w :: List.replicate m w) RetryOutcome.exhausted)
    omega

theorem retryAux_propagate (f : Nat → AttemptResult) (w : Nat) :
    ∀ (k n fuel : Nat), (∀ j, j < k → f (n + j) = AttemptResult.transient) →
      f (n + k) = AttemptResult.other → k < fuel →
      retryAux f w n fuel =
        ⟨n + k + 1, List.replicate k w, RetryOutcome.propagated⟩ := by
  intro k
  induction k with
  | zero =>
    intro n fuel h1 h2 hk
    match fuel, hk with
    | fuel' + 1, _ =>
      rw [retryAux]
      rw [show f n = AttemptResult.other from by simpa using h2]
      simp
  | succ m ih =>
    intro n fuel h1 h2 hk
    match fuel, hk with
    | fuel' + 1, hk =>
      have hfn : f n = AttemptResult.transient := by
        simpa using h1 0 (Nat.succ_pos m)
      have hne : ¬ fuel' = 0 := by omega
      have hrec := ih (n + 1) fuel'
        (fun j hj => by
          have := h1 (j + 1) (by omega)
          simpa [Nat.add_assoc, Nat.add_comm 1 j] using this)
        (by
          have : n + (m + 1) = n + 1 + m := by omega
          rw [this] at h2
          exact h2)
        (by omega)
      rw [retryAux]
      rw [hfn]
      simp only [hne, if_false, hrec, List.replicate_succ]
      apply congrArg (fun a => RetryTrace.mk a (w :: List.replicate m w)
        RetryOutcome.propagated)
      omega

/-- If no non-discontinued candidate in `rem` matches the symbol exactly, the
loop never breaks: the fallback survives and candidate_gene_id collects
exactly the non-discontinued alias matches, in relevance order. -/
theorem multiLoop_nobreak (ds : DataSource) (sym : String)
    (recs : String → GeneRecord) :
    ∀ (rem : List String) (gid : String) (cand : List String)
      (lc : Option String) (tr : List String) (d2 : List (String × String)),
    (∀ c ∈ rem, ds.fetch c = Except.ok (recs c)) →
    (∀ c ∈ rem, (recs c).discontinued = false →
      (recs c).official.head? ≠ some sym) →
    (multiLoop ds sym rem gid cand lc tr d2).out =
      Except.ok (gid, cand ++ rem.filter (aliasHit recs sym)) := by
  intro rem
  induction rem with
  | nil => intro gid cand lc tr d2 _ _; simp [multiLoop]
  | cons c rest ih =>
    intro gid cand lc tr d2 hf hx
    have hfc : ds.fetch c = Except.ok (recs c) := hf c (List.mem_cons_self c rest)
    have hfr : ∀ x ∈ rest, ds.fetch x = Except.ok (recs x) :=
      fun x hx' => hf x (List.mem_cons_of_mem _ hx')
    have hxr : ∀ x ∈ rest, (recs x).discontinued = false →
        (recs x).official.head? ≠ some sym :=
      fun x hx' => hx x (List.mem_cons_of_mem _ hx')
    by_cases hd : (recs c).discontinued
    · have hred : multiLoop ds sym (c :: rest) gid cand lc tr d2 =
          multiLoop ds sym rest gid cand (some c) (tr ++ [c])
            (d2 ++ [(sym, c)]) := by
        rw [multiLoop, hfc]
        simp [hd]
      rw [hred, ih gid cand (some c) (tr ++ [c]) (d2 ++ [(sym, c)]) hfr hxr]
      simp [List.filter_cons, aliasHit, hd]
    · have hexact : (recs c).official.head? ≠ some sym :=
        hx c (List.mem_cons_self c rest) (by simpa using hd)
      by_cases ha : sym ∈ (recs c).aliases
      · have hred : multiLoop ds sym (c :: rest) gid cand lc tr d2 =
            multiLoop ds sym rest gid (cand ++ [c]) (some c) (tr ++ [c]) d2 := by
          rw [multiLoop, hfc]
          simp [hd, hexact, ha]
        rw [hred, ih gid (cand ++ [c]) (some c) (tr ++ [c]) d2 hfr hxr]
        simp [List.filter_cons, aliasHit, hd, ha]
      · have hred : multiLoop ds sym (c :: rest) gid cand lc tr d2 =
            multiLoop ds sym rest gid cand (some c) (tr ++ [c]) d2 := by
          rw [multiLoop, hfc]
          simp [hd, hexact, ha]
        rw [hred, ih gid cand (some c) (tr ++ [c]) d2 hfr hxr]
        simp [List.filter_cons, aliasHit, hd, ha]

/-- If the candidate at position k is the first non-discontinued candidate
whose first official symbol equals the input symbol, the loop breaks there:
gene_id becomes that candidate, candidate_gene_id is emptied, and only the
first k+1 candidates are ever fetched. -/
theorem multiLoop_exact (ds : DataSource) (sym : String)
    (recs : String → GeneRecord) :
    ∀ (rem : List String) (k : Nat) (hk : k < rem.length) (gid : String)
      (cand : List String) (lc : Option String) (tr : List String)
      (d2 : List (String × String)),
    (∀ c ∈ rem.take (k + 1), ds.fetch c = Except.ok (recs c)) →
    (recs (rem.get ⟨k, hk⟩)).discontinued = false →
    (recs (rem.get ⟨k, hk⟩)).official.head? = some sym →
    (∀ c ∈ rem.take k, (recs c).discontinued = true ∨
      (recs c).official.head? ≠ some sym) →
    (multiLoop ds sym rem gid cand lc tr d2).out =
        Except.ok (rem.get ⟨k, hk⟩, []) ∧
      (multiLoop ds sym rem gid cand lc tr d2).fetched =
        tr ++ rem.take (k + 1) := by
  intro rem
  induction rem with
  | nil => intro k hk; exact absurd hk (by simp)
  | cons c rest ih =>
    intro k hk gid cand lc tr d2 hf hdk hok hearlier
    match k with
    | 0 =>
      have hfc : ds.fetch c = Except.ok (recs c) := hf c (by simp)
      simp only [List.get] at hdk hok
      have hred : multiLoop ds sym (c :: rest) gid cand lc tr d2 =
          ⟨some c, tr ++ [c], d2, Except.ok (c, [])⟩ := by
        rw [multiLoop, hfc]
        simp [hdk, hok]
      rw [hred]
      simp [List.get, List.take_succ_cons]
    | m + 1 =>
      have hfc : ds.fetch c = Except.ok (recs c) := hf c (by simp)
      have hm : m < rest.length := by simpa using hk
      have hdk' : (recs (rest.get ⟨m, hm⟩)).discontinued = false := by
        simpa [List.get] using hdk
      have hok' : (recs (rest.get ⟨m, hm⟩)).official.head? = some sym := by
        simpa [List.get] using hok
      have hget : (c :: rest).get ⟨m + 1, hk⟩ = rest.get ⟨m, hm⟩ := rfl
      have hf' : ∀ x ∈ rest.take (m + 1), ds.fetch x = Except.ok (recs x) :=
        fun x hx' => hf x (by
          rw [List.take_succ_cons]
          exact List.mem_cons_of_mem _ hx')
      have hearlier' : ∀ x ∈ rest.take m, (recs x).discontinued = true ∨
          (recs x).official.head? ≠ some sym :=
        fun x hx' => hearlier x (by
          rw [List.take_succ_cons]
          exact List.mem_cons_of_mem _ hx')
      have hc0 := hearlier c (by
        rw [List.take_succ_cons]
        exact List.mem_cons_self _ _)
      by_cases hd : (recs c).discontinued
      · have hred : multiLoop ds sym (c :: rest) gid cand lc tr d2 =
            multiLoop ds sym rest gid cand (some c) (tr ++ [c])
              (d2 ++ [(sym, c)]) := by
          rw [multiLoop, hfc]
          simp [hd]
        have hrec := ih m hm gid cand (some c) (tr ++ [c]) (d2 ++ [(sym, c)])
          hf' hdk' hok' hearlier'
        refine ⟨?_, ?_⟩
        · rw [hred, hrec.1, hget]
        · rw [hred, hrec.2, List.take_succ_cons]
          simp
      · have hexact : (recs c).official.head? ≠ some sym := by
          rcases hc0 with h | h
          · exact absurd h (by simpa using hd)
          · exact h
        by_cases ha : sym ∈ (recs c).aliases
        · have hred : multiLoop ds sym (c :: rest) gid cand lc tr d2 =
              multiLoop ds sym rest gid (cand ++ [c]) (some c) (tr ++ [c])
                d2 := by
            rw [multiLoop, hfc]
            simp [hd, hexact, ha]
          have hrec := ih m hm gid (cand ++ [c]) (some c) (tr ++ [c]) d2
            hf' hdk' hok' hearlier'
          refine ⟨?_, ?_⟩
          · rw [hred, hrec.1, hget]
          · rw [hred, hrec.2, List.take_succ_cons]
            simp
        · have hred : multiLoop ds sym (c :: rest) gid cand lc tr d2 =
              multiLoop ds sym rest gid cand (some c) (tr ++ [c]) d2 := by
            rw [multiLoop, hfc]
            simp [hd, hexact, ha]
          have hrec := ih m hm gid cand (some c) (tr ++ [c]) d2
            hf' hdk' hok' hearlier'
          refine ⟨?_, ?_⟩
          · rw [hred, hrec.1, hget]
          · rw [hred, hrec.2, List.take_succ_cons]
            simp

/-- The pair (gene_id, candidate_gene_id) left by the loop does not depend
on the incoming check_gene_id binding or on the log accumulators. -/
theorem multiLoop_out_congr (ds : DataSource) (sym : String) :
    ∀ (rem : List String) (gid : String) (cand : List String)
      (lc lc' : Option String) (tr tr' : List String)
      (d2 d2' : List (String × String)),
    (multiLoop ds sym rem gid cand lc tr d2).out =
      (multiLoop ds sym rem gid cand lc' tr' d2').out := by
  intro rem
  induction rem with
  | nil => intro gid cand lc lc' tr tr' d2 d2'; simp [multiLoop]
  | cons c rest ih =>
    intro gid cand lc lc' tr tr' d2 d2'
    cases hfc : ds.fetch c with
    | error e =>
      rw [multiLoop, multiLoop, hfc]
    | ok rec =>
      by_cases hd : rec.discontinued
      · have h1 : multiLoop ds sym (c :: rest) gid cand lc tr d2 =
            multiLoop ds sym rest gid cand (some c) (tr ++ [c])
              (d2 ++ [(sym, c)]) := by
          rw [multiLoop, hfc]
          simp [hd]
        have h2 : multiLoop ds sym (c :: rest) gid cand lc' tr' d2' =
            multiLoop ds sym rest gid cand (some c) (tr' ++ [c])
              (d2' ++ [(sym, c)]) := by
          rw [multiLoop, hfc]
          simp [hd]
        rw [h1, h2]
        exact ih gid cand (some c) (some c) _ _ _ _
      · by_cases ho : rec.official.head? = some sym
        · have h1 : (multiLoop ds sym (c :: rest) gid cand lc tr d2).out =
              Except.ok (c, []) := by
            rw [multiLoop, hfc]
            simp [hd, ho]
          have h2 : (multiLoop ds sym (c :: rest) gid cand lc' tr' d2').out =
              Except.ok (c, []) := by
            rw [multiLoop, hfc]
            simp [hd, ho]
          rw [h1, h2]
        · by_cases ha : sym ∈ rec.aliases
          · have h1 : multiLoop ds sym (c :: rest) gid cand lc tr d2 =
                multiLoop ds sym rest gid (cand ++ [c]) (some c) (tr ++ [c])
                  d2 := by
              rw [multiLoop, hfc]
              simp [hd, ho, ha]
            have h2 : multiLoop ds sym (c :: rest) gid cand lc' tr' d2' =
                multiLoop ds sym rest gid (cand ++ [c]) (some c) (tr' ++ [c])
                  d2' := by
              rw [multiLoop, hfc]
              simp [hd, ho, ha]
            rw [h1, h2]
            exact ih gid (cand ++ [c]) (some c) (some c) _ _ _ _
          · have h1 : multiLoop ds sym (c :: rest) gid cand lc tr d2 =
                multiLoop ds sym rest gid cand (some c) (tr ++ [c]) d2 := by
              rw [multiLoop, hfc]
              simp [hd, ho, ha]
            have h2 : multiLoop ds sym (c :: rest) gid cand lc' tr' d2' =
                multiLoop ds sym rest gid cand (some c) (tr' ++ [c]) d2' := by
              rw [multiLoop, hfc]
              simp [hd, ho, ha]
            rw [h1, h2]
            exact ih gid cand (some c) (some c) _ _ _ _

/-- If the loop terminates normally, its gene_id is either the incoming
fallback or a candidate fetched as non-discontinued, and every entry of
candidate_gene_id is either an incoming entry or a candidate fetched as
non-discontinued. -/
theorem multiLoop_ok_src (ds : DataSource) (sym : String) :
    ∀ (rem : List String) (gid : String) (cand : List String)
      (lc : Option String) (tr : List String) (d2 : List (String × String))
      (g : String) (cs : List String),
    (multiLoop ds sym rem gid cand lc tr d2).out = Except.ok (g, cs) →
    (g = gid ∨ ∃ rec, ds.fetch g = Except.ok rec ∧ rec.discontinued = false) ∧
    (∀ x ∈ cs, x ∈ cand ∨
      ∃ rec, ds.fetch x = Except.ok rec ∧ rec.discontinued = false) := by
  intro rem
  induction rem with
  | nil =>
    intro gid cand lc tr d2 g cs h
    simp [multiLoop] at h
    exact ⟨Or.inl h.1.symm, fun x hx => Or.inl (h.2 ▸ hx)⟩
  | cons c rest ih =>
    intro gid cand lc tr d2 g cs h
    cases hfc : ds.fetch c with
    | error e =>
      rw [multiLoop, hfc] at h
      simp at h
    | ok rec =>
      by_cases hd : rec.discontinued
      · rw [multiLoop, hfc] at h
        simp only [hd, if_true] at h
        exact ih gid cand (some c) (tr ++ [c]) (d2 ++ [(sym, c)]) g cs h
      · by_cases ho : rec.official.head? = some sym
        · rw [multiLoop, hfc] at h
          simp only [hd, ho] at h
          simp at h
          obtain ⟨rfl, rfl⟩ := h
          exact ⟨Or.inr ⟨rec, hfc, by simpa using hd⟩, by simp⟩
        · by_cases ha : sym ∈ rec.aliases
          · rw [multiLoop, hfc] at h
            simp only [hd, ho, ha, if_true, if_false] at h
            have hrec := ih gid (cand ++ [c]) (some c) (tr ++ [c]) d2 g cs h
            refine ⟨hrec.1.imp id id, fun x hx => ?_⟩
            rcases hrec.2 x hx with hx' | hx'
            · rcases List.mem_append.mp hx' with h1 | h1
              · exact Or.inl h1
              · have : x = c := by simpa using h1
                subst this
                exact Or.inr ⟨rec, hfc, by simpa using hd⟩
            · exact Or.inr hx'
          · rw [multiLoop, hfc] at h
            simp only [hd, ho, ha, if_false] at h
            exact ih gid cand (some c) (tr ++ [c]) d2 g cs h

/-- Whether a symbol resolves (ends up in gene_id_dict) does not depend on
the leaked check_gene_id binding. -/
theorem resolveGene_isResolved (ds : DataSource) (g : String)
    (lc : Option String) :
    isResolvedOutcome (resolveGene ds lc g).outcome = resolves ds g := by
  unfold resolves
  cases hs : ds.search g with
  | error e => simp [resolveGene, hs]
  | ok ids =>
    match ids with
    | [] => simp [resolveGene, hs]
    | [gid] =>
      cases hf : ds.fetch gid with
      | error e => simp [resolveGene, hs, hf]
      | ok rec =>
        by_cases hd : rec.discontinued
        · cases lc <;> simp [resolveGene, hs, hf, hd, isResolvedOutcome]
        · simp [resolveGene, hs, hf, hd, isResolvedOutcome]
    | c0 :: c1 :: rest =>
      simp only [resolveGene, hs]
      rw [multiLoop_out_congr ds g (c0 :: c1 :: rest) c0 [] lc none [] [] [] []]

def isFailureOutcome : GeneOutcome → Bool
  | GeneOutcome.failure _ => true
  | _ => false

/-- The outcome trace grows by exactly one entry per processed symbol. -/
theorem step_outcomes (ds : DataSource) (st : RunState) (g : String) :
    (step ds st g).outcomes =
      st.outcomes ++ [(g, (resolveGene ds st.lastCheck g).outcome)] := by
  rcases hout : (resolveGene ds st.lastCheck g).outcome with gid | _ | gid | e <;>
    simp [step, hout]

theorem step_genesNone_mono (ds : DataSource) (st : RunState) (g : String) :
    ∀ x ∈ st.genesNone, x ∈ (step ds st g).genesNone := by
  intro x hx
  rcases hout : (resolveGene ds st.lastCheck g).outcome with gid | _ | gid | e <;>
    simp [step, hout, hx]

theorem map_fst_outcomes_run (ds : DataSource) :
    ∀ (genes : List String) (st : RunState),
    ((genes.foldl (step ds) st).outcomes).map Prod.fst =
      st.outcomes.map Prod.fst ++ genes := by
  intro genes
  induction genes with
  | nil => intro st; simp
  | cons g gs ih =>
    intro st
    rw [List.foldl_cons, ih, step_outcomes]
    simp

/-- Every symbol whose recorded outcome is a caught exception is on the
genes_None list. -/
theorem run_failRecorded (ds : DataSource) :
    ∀ (genes : List String) (st : RunState),
    (∀ p ∈ st.outcomes, isFailureOutcome p.2 = true → p.1 ∈ st.genesNone) →
    ∀ p ∈ (genes.foldl (step ds) st).outcomes, isFailureOutcome p.2 = true →
      p.1 ∈ (genes.foldl (step ds) st).genesNone := by
  intro genes
  induction genes with
  | nil => intro st h; exact h
  | cons g gs ih =>
    intro st h
    rw [List.foldl_cons]
    refine ih (step ds st g) ?_
    intro p hp hfail
    rw [step_outcomes] at hp
    rcases List.mem_append.mp hp with hp' | hp'
    · exact step_genesNone_mono ds st g _ (h p hp' hfail)
    · have hpe : p = (g, (resolveGene ds st.lastCheck g).outcome) := by
        simpa using hp'
      subst hpe
      rcases hout : (resolveGene ds st.lastCheck g).outcome with gid | _ | gid | e <;>
        rw [hout] at hfail <;> simp [isFailureOutcome] at hfail <;>
        simp [step, hout]

/-- Invariant tying each output bucket to lc-independent resolvedness. -/
def okInv (ds : DataSource) (st : RunState) : Prop :=
  (∀ p ∈ st.geneIdDict, resolves ds p.1 = true) ∧
  (∀ g ∈ st.genesNone, resolves ds g = false) ∧
  (∀ p ∈ st.disc1, resolves ds p.1 = false)

theorem step_okInv (ds : DataSource) (st : RunState) (g : String)
    (h : okInv ds st) : okInv ds (step ds st g) := by
  obtain ⟨h1, h2, h3⟩ := h
  have hres := resolveGene_isResolved ds g st.lastCheck
  rcases hout : (resolveGene ds st.lastCheck g).outcome with gid | _ | gid | e
  · have hg : resolves ds g = true := by
      rw [← hres, hout]
      rfl
    refine ⟨?_, ?_, ?_⟩ <;> simp only [step, hout]
    · intro p hp
      simp only [dictInsert] at hp
      rcases List.mem_append.mp hp with hp' | hp'
      · exact h1 p (List.mem_filter.mp hp').1
      · have : p = (g, gid) := by simpa using hp'
        rw [this]
        exact hg
    · exact h2
    · exact h3
  · have hg : resolves ds g = false := by
      rw [← hres, hout]
      rfl
    refine ⟨?_, ?_, ?_⟩ <;> simp only [step, hout]
    · exact h1
    · intro x hx
      rcases List.mem_append.mp hx with hx' | hx'
      · exact h2 x hx'
      · have : x = g := by simpa using hx'
        rw [this]
        exact hg
    · exact h3
  · have hg : resolves ds g = false := by
      rw [← hres, hout]
      rfl
    refine ⟨?_, ?_, ?_⟩ <;> simp only [step, hout]
    · exact h1
    · exact h2
    · intro p hp
      rcases List.mem_append.mp hp with hp' | hp'
      · exact h3 p hp'
      · have : p = (g, gid) := by simpa using hp'
        rw [this]
        exact hg
  · have hg : resolves ds g = false := by
      rw [← hres, hout]
      rfl
    refine ⟨?_, ?_, ?_⟩ <;> simp only [step, hout]
    · exact h1
    · intro x hx
      rcases List.mem_append.mp hx with hx' | hx'
      · exact h2 x hx'
      · have : x = g := by simpa using hx'
        rw [this]
        exact hg
    · exact h3

theorem run_okInv (ds : DataSource) (genes : List String) :
    okInv ds (runGenes ds genes) := by
  suffices h : ∀ (gs : List String) (st : RunState), okInv ds st →
      okInv ds (gs.foldl (step ds) st) by
    exact h genes initState ⟨by simp [initState], by simp [initState],
      by simp [initState]⟩
  intro gs
  induction gs with
  | nil => intro st h; exact h
  | cons g gs' ih =>
    intro st h
    rw [List.foldl_cons]
    exact ih (step ds st g) (step_okInv ds st g h)

/-- As long as no symbol has produced two or more candidates, the loop
variable check_gene_id stays unbound and nothing is appended to
genes_NCBI_Discontinued_1.txt. -/
theorem run_lastCheck_none (ds : DataSource) :
    ∀ (pre : List String) (st : RunState), st.lastCheck = none →
    (∀ g ∈ pre, ∀ ids, ds.search g = Except.ok ids → ids.length ≤ 1) →
    (pre.foldl (step ds) st).lastCheck = none ∧
    (pre.foldl (step ds) st).disc1 = st.disc1 := by
  have hstep : ∀ (st : RunState) (g : String), st.lastCheck = none →
      (∀ ids, ds.search g = Except.ok ids → ids.length ≤ 1) →
      (step ds st g).lastCheck = none ∧ (step ds st g).disc1 = st.disc1 := by
    intro st g hlc hshort
    have hr : (resolveGene ds st.lastCheck g).lastCheck = none ∧
        ∀ gid, (resolveGene ds st.lastCheck g).outcome ≠
          GeneOutcome.soleDiscontinued gid := by
      rw [hlc]
      cases hs : ds.search g with
      | error e => simp [resolveGene, hs]
      | ok ids =>
        match ids with
        | [] => simp [resolveGene, hs]
        | [gid] =>
          cases hf : ds.fetch gid with
          | error e => simp [resolveGene, hs, hf]
          | ok rec =>
            by_cases hd : rec.discontinued <;>
              simp [resolveGene, hs, hf, hd]
        | c0 :: c1 :: rest =>
          have := hshort (c0 :: c1 :: rest) hs
          simp at this
    rcases hout : (resolveGene ds st.lastCheck g).outcome with gid | _ | gid | e
    · exact ⟨by simp [step, hout, hr.1], by simp [step, hout]⟩
    · exact ⟨by simp [step, hout, hr.1], by simp [step, hout]⟩
    · exact absurd hout (hr.2 gid)
    · exact ⟨by simp [step, hout, hr.1], by simp [step, hout]⟩
  intro pre
  induction pre with
  | nil => intro st h _; exact ⟨h, rfl⟩
  | cons g gs ih =>
    intro st hlc hshort
    rw [List.foldl_cons]
    have h1 := hstep st g hlc (hshort g (List.mem_cons_self g gs))
    have h2 := ih (step ds st g) h1.1
      (fun x hx => hshort x (List.mem_cons_of_mem _ hx))
    exact ⟨h2.1, h2.2.trans h1.2⟩

/-- If nothing before position k passes the filter and position k does, the
filtered list starts with the element at position k. -/
theorem filter_head_first {α : Type} (p : α → Bool) :
    ∀ (l : List α) (k : Nat) (hk : k < l.length),
    (∀ c ∈ l.take k, p c = false) → p (l.get ⟨k, hk⟩) = true →
    ∃ t, l.filter p = l.get ⟨k, hk⟩ :: t := by
  intro l
  induction l with
  | nil => intro k hk; exact absurd hk (by simp)
  | cons c rest ih =>
    intro k hk hbefore hit
    match k with
    | 0 =>
      refine ⟨rest.filter p, ?_⟩
      rw [List.filter_cons]
      simp only [List.get] at hit
      simp [hit]
    | m + 1 =>
      have hm : m < rest.length := by simpa using hk
      have hc : p c = false := hbefore c (by
        rw [List.take_succ_cons]
        exact List.mem_cons_self _ _)
      have hit' : p (rest.get ⟨m, hm⟩) = true := by simpa [List.get] using hit
      have hbefore' : ∀ x ∈ rest.take m, p x = false :=
        fun x hx => hbefore x (by
          rw [List.take_succ_cons]
          exact List.mem_cons_of_mem _ hx)
      obtain ⟨t, ht⟩ := ih m hm hbefore' hit'
      refine ⟨t, ?_⟩
      rw [List.filter_cons]
      simp [hc, ht, List.get]

/-! ## The claims -/

/-- C1, as stated, fails on the code: for symbol X the data source dsA
returns three candidates; the candidate at rank 1 has official symbol
exactly X and no earlier-ranked non-discontinued candidate does (the rank-0
candidate is non-discontinued with official symbol A); yet the resolver
returns the rank-0 candidate (its alias match wins, because the rank-1
candidate is discontinued and therefore skipped before its official symbol
is ever compared), and it fetches all three candidates instead of stopping
at rank 1. -/
theorem C1_counterexample :
    dsA.search "X" = Except.ok ["1", "2", "3"] ∧
    dsA.fetch "1" = Except.ok ⟨false, ["A"], ["X"]⟩ ∧
    dsA.fetch "2" = Except.ok ⟨true, ["X"], []⟩ ∧
    (resolveGene dsA none "X").outcome = GeneOutcome.resolved "1" ∧
    (resolveGene dsA none "X").outcome ≠ GeneOutcome.resolved "2" ∧
    (resolveGene dsA none "X").fetched = ["1", "2", "3"] := by
  decide

/-- C1 (amended): for every symbol whose search returns two or more
candidates, if the candidate at relevance rank k is NOT DISCONTINUED, its
official symbol exactly equals the input symbol, and no earlier-ranked
non-discontinued candidate has an exactly matching official symbol, then
the resolver returns that candidate, iteration stops at rank k (exactly the
first k+1 candidates are fetched), and any alias matches collected earlier
are discarded (the result does not depend on any alias data). -/
theorem C1_amended (ds : DataSource) (lc : Option String) (sym : String)
    (recs : String → GeneRecord) (c0 c1 : String) (rest : List String)
    (k : Nat) (hk : k < (c0 :: c1 :: rest).length)
    (hsearch : ds.search sym = Except.ok (c0 :: c1 :: rest))
    (hfetch : ∀ c ∈ c0 :: c1 :: rest, ds.fetch c = Except.ok (recs c))
    (hkd : (recs ((c0 :: c1 :: rest).get ⟨k, hk⟩)).discontinued = false)
    (hko : (recs ((c0 :: c1 :: rest).get ⟨k, hk⟩)).official.head? = some sym)
    (hearlier : ∀ c ∈ (c0 :: c1 :: rest).take k,
      (recs c).discontinued = true ∨ (recs c).official.head? ≠ some sym) :
    (resolveGene ds lc sym).outcome =
        GeneOutcome.resolved ((c0 :: c1 :: rest).get ⟨k, hk⟩) ∧
      (resolveGene ds lc sym).fetched = (c0 :: c1 :: rest).take (k + 1) := by
  have hf' : ∀ c ∈ (c0 :: c1 :: rest).take (k + 1),
      ds.fetch c = Except.ok (recs c) :=
    fun c hc => hfetch c (List.take_subset _ _ hc)
  have hml := multiLoop_exact ds sym recs (c0 :: c1 :: rest) k hk c0 [] lc [] []
    hf' hkd hko hearlier
  constructor
  · simp only [resolveGene, hsearch]
    rw [hml.1]
    rfl
  · simp only [resolveGene, hsearch]
    rw [hml.2]
    simp

/-- C1 amended witness: on dsB, symbol X has candidates 1 (alias match at
rank 0) and 2 (non-discontinued exact official match at rank 1); the
resolver returns candidate 2 and fetches exactly candidates 1 and 2. -/
theorem C1_witness :
    (resolveGene dsB none "X").outcome = GeneOutcome.resolved "2" ∧
    (resolveGene dsB none "X").fetched = ["1", "2"] := by
  have h := C1_amended dsB none "X" recsB "1" "2" [] 1 (by decide)
    (by decide) (by decide) (by decide) (by decide) (by decide)
  simpa using h

/-- C2: for every symbol with two or more candidates where no candidate has
an exactly matching official symbol and no non-discontinued candidate lists
the symbol among its aliases, the resolver returns the top-relevance-ranked
candidate of the original unfiltered search result (the fallback gene_id
initialised before the loop), with no constraint on that candidate being
non-discontinued. -/
theorem C2_fallback (ds : DataSource) (lc : Option String) (sym c0 c1 : String)
    (rest : List String) (recs : String → GeneRecord)
    (hsearch : ds.search sym = Except.ok (c0 :: c1 :: rest))
    (hfetch : ∀ c ∈ c0 :: c1 :: rest, ds.fetch c = Except.ok (recs c))
    (hnoexact : ∀ c ∈ c0 :: c1 :: rest, (recs c).official.head? ≠ some sym)
    (hnoalias : ∀ c ∈ c0 :: c1 :: rest, (recs c).discontinued = false →
      sym ∉ (recs c).aliases) :
    (resolveGene ds lc sym).outcome = GeneOutcome.resolved c0 := by
  have hml := multiLoop_nobreak ds sym recs (c0 :: c1 :: rest) c0 [] lc [] []
    hfetch (fun c hc _ => hnoexact c hc)
  have hfilter : (c0 :: c1 :: rest).filter (aliasHit recs sym) = [] := by
    rw [List.filter_eq_nil]
    intro c hc
    simp only [aliasHit, Bool.and_eq_true, Bool.not_eq_true_eq_eq_false,
      decide_eq_true_eq, not_and, Bool.not_eq_true]
    intro hdisc
    exact fun hmem => hnoalias c hc hdisc hmem
  rw [hfilter] at hml
  simp only [resolveGene, hsearch]
  rw [hml]
  rfl

/-- C2 witness: on dsC the rank-0 candidate of X is itself discontinued yet
it is the returned fallback, since neither candidate matched X by official
symbol or alias. -/
theorem C2_witness :
    dsC.fetch "1" = Except.ok ⟨true, ["A"], []⟩ ∧
    (resolveGene dsC none "X").outcome = GeneOutcome.resolved "1" :=
  ⟨by decide, C2_fallback dsC none "X" "1" "2" [] recsC (by decide) (by decide)
    (by decide) (by decide)⟩

/-- C3, as stated, fails on the code: on dsD the resolved mapping after the
run records X to candidate 1, and candidate 1 is discontinued (it is the
no-match fallback, accepted even though its record carries the
discontinuation marker). -/
theorem C3_counterexample :
    (runGenes dsD ["X"]).geneIdDict = [("X", "1")] ∧
    dsD.fetch "1" = Except.ok ⟨true, ["A"], []⟩ := by
  decide

/-- C3 (amended): a candidate whose record carries the discontinuation
marker is recorded as a resolution only as the no-match fallback of the
multi-candidate case: it must be the top-relevance-ranked candidate of a
search that returned two or more candidates. -/
theorem C3_amended (ds : DataSource) (lc : Option String) (sym gid : String)
    (rec : GeneRecord) (ids : List String)
    (hsearch : ds.search sym = Except.ok ids)
    (hres : (resolveGene ds lc sym).outcome = GeneOutcome.resolved gid)
    (hrec : ds.fetch gid = Except.ok rec) (hdisc : rec.discontinued = true) :
    2 ≤ ids.length ∧ ids.head? = some gid := by
  match ids with
  | [] => simp [resolveGene, hsearch] at hres
  | [g0] =>
    exfalso
    cases hf : ds.fetch g0 with
    | error e => simp [resolveGene, hsearch, hf] at hres
    | ok rec' =>
      by_cases hd : rec'.discontinued
      · cases lc <;> simp [resolveGene, hsearch, hf, hd] at hres
      · simp [resolveGene, hsearch, hf, hd] at hres
        rw [hres] at hf
        rw [hf] at hrec
        have : rec' = rec := by simpa using hrec
        rw [this] at hd
        exact hd hdisc
  | c0 :: c1 :: rest =>
    refine ⟨by simp, ?_⟩
    simp only [resolveGene, hsearch] at hres
    cases hout : (multiLoop ds sym (c0 :: c1 :: rest) c0 [] lc [] []).out with
    | error e =>
      rw [hout] at hres
      simp [multiOutcome] at hres
    | ok pr =>
      obtain ⟨g, cs⟩ := pr
      have hsrc := multiLoop_ok_src ds sym (c0 :: c1 :: rest) c0 [] lc [] []
        g cs hout
      rw [hout] at hres
      match cs with
      | [] =>
        have hg : g = gid := by simpa [multiOutcome] using hres
        rcases hsrc.1 with h | ⟨rec', hfr, hdr⟩
        · rw [← hg, h]
          rfl
        · exfalso
          rw [hg, hrec] at hfr
          have : rec = rec' := by simpa using hfr
          rw [← this] at hdr
          rw [hdisc] at hdr
          simp at hdr
      | c :: cs' =>
        exfalso
        have hg : c = gid := by simpa [multiOutcome] using hres
        rcases hsrc.2 c (List.mem_cons_self _ _) with h | ⟨rec', hfr, hdr⟩
        · simp at h
        · rw [hg, hrec] at hfr
          have : rec = rec' := by simpa using hfr
          rw [← this] at hdr
          rw [hdisc] at hdr
          simp at hdr

/-- C3 amended witness: applying the amended statement to the dsD run. -/
theorem C3_witness :
    2 ≤ (["1", "2"] : List String).length ∧
      (["1", "2"] : List String).head? = some "1" :=
  C3_amended dsD none "X" "1" ⟨true, ["A"], []⟩ ["1", "2"] (by decide)
    (by decide) (by decide) rfl

/-- C4: for every symbol with two or more candidates where no candidate has
an exactly matching official symbol but some non-discontinued candidate
lists the symbol among its aliases, the resolver returns the first (best
relevance rank) such alias-matching candidate. -/
theorem C4_alias (ds : DataSource) (lc : Option String) (sym c0 c1 : String)
    (rest : List String) (recs : String → GeneRecord) (k : Nat)
    (hk : k < (c0 :: c1 :: rest).length)
    (hsearch : ds.search sym = Except.ok (c0 :: c1 :: rest))
    (hfetch : ∀ c ∈ c0 :: c1 :: rest, ds.fetch c = Except.ok (recs c))
    (hnoexact : ∀ c ∈ c0 :: c1 :: rest, (recs c).official.head? ≠ some sym)
    (hkd : (recs ((c0 :: c1 :: rest).get ⟨k, hk⟩)).discontinued = false)
    (hka : sym ∈ (recs ((c0 :: c1 :: rest).get ⟨k, hk⟩)).aliases)
    (hbefore : ∀ c ∈ (c0 :: c1 :: rest).take k,
      ¬((recs c).discontinued = false ∧ sym ∈ (recs c).aliases)) :
    (resolveGene ds lc sym).outcome =
      GeneOutcome.resolved ((c0 :: c1 :: rest).get ⟨k, hk⟩) := by
  have hml := multiLoop_nobreak ds sym recs (c0 :: c1 :: rest) c0 [] lc [] []
    hfetch (fun c hc _ => hnoexact c hc)
  have hbf : ∀ c ∈ (c0 :: c1 :: rest).take k, aliasHit recs sym c = false := by
    intro c hc
    have := hbefore c hc
    simp only [aliasHit, Bool.and_eq_false_iff]
    by_cases hd : (recs c).discontinued
    · left
      simp [hd]
    · right
      have : sym ∉ (recs c).aliases := fun hmem =>
        hbefore c hc ⟨by simpa using hd, hmem⟩
      simp [this]
  have hhit : aliasHit recs sym ((c0 :: c1 :: rest).get ⟨k, hk⟩) = true := by
    unfold aliasHit
    rw [hkd]
    rw [Bool.not_false, Bool.true_and, decide_eq_true_eq]
    exact hka
  obtain ⟨t, ht⟩ := filter_head_first (aliasHit recs sym) (c0 :: c1 :: rest)
    k hk hbf hhit
  rw [ht] at hml
  simp only [resolveGene, hsearch]
  rw [hml]
  rfl

/-- C4 witness: on dsE the rank-0 candidate is a discontinued alias carrier
(skipped), so the resolver returns the rank-1 candidate, the first
non-discontinued alias match, not the rank-2 alias match. -/
theorem C4_witness :
    (resolveGene dsE none "X").outcome = GeneOutcome.resolved "2" := by
  have h := C4_alias dsE none "X" "1" "2" ["3"] recsE 1 (by decide) (by decide)
    (by decide) (by decide) (by decide) (by decide) (by decide)
  simpa using h

/-- C5: a retry-wrapped network call (call_esearch or call_efetch) that
fails with a transient requests.RequestException on every attempt is
attempted exactly 6 times, with a fixed 3-second wait between consecutive
attempts (5 waits), before tenacity surfaces its retry-exhaustion error;
and a call whose attempt k raises an exception outside the
requests.RequestException class propagates it at once: attempt k is the
last one made and no further wait or retry happens. -/
theorem C5_retry_policy (f g : Nat -> AttemptResult) (k : Nat)
    (hf : ∀ n, f n = AttemptResult.transient)
    (hg1 : ∀ j, j < k -> g j = AttemptResult.transient)
    (hg2 : g k = AttemptResult.other) (hk : k < 6) :
    call_esearch_retry f =
        RetryTrace.mk 6 (List.replicate 5 3) RetryOutcome.exhausted ∧
      call_efetch_retry g =
        RetryTrace.mk (k + 1) (List.replicate k 3) RetryOutcome.propagated := by
  constructor
  . have h := retryAux_allTransient f 3 hf 5 0
    unfold call_esearch_retry tenacityRetry retryStopAttempts retryWaitSeconds
    simpa using h
  . have h := retryAux_propagate g 3 k 0 6
      (fun j hj => by simpa using hg1 j hj) (by simpa using hg2) hk
    unfold call_efetch_retry tenacityRetry retryStopAttempts retryWaitSeconds
    simpa using h

/-- C5 witness: an always-transient call and a call failing non-transiently
on its first attempt. -/
theorem C5_witness :
    call_esearch_retry (fun _ => AttemptResult.transient) =
        RetryTrace.mk 6 (List.replicate 5 3) RetryOutcome.exhausted ∧
      call_efetch_retry (fun _ => AttemptResult.other) =
        RetryTrace.mk 1 (List.replicate 0 3) RetryOutcome.propagated :=
  C5_retry_policy (fun _ => AttemptResult.transient)
    (fun _ => AttemptResult.other) 0 (fun _ => rfl)
    (fun j hj => absurd hj (Nat.not_lt_zero j)) rfl (by decide)

/-- C6: the claim describes the intended behaviour (the symbol with a sole
discontinued candidate is recorded as unresolved-because-discontinued), but
the code has a slip: the log line of that branch reads the unbound variable
check_gene_id, so on dsF (where no multi-candidate symbol precedes S) the
branch raises NameError and S is recorded in the generic failure list
genes_None instead of the discontinued-specific list; it is still absent
from the resolved mapping. -/
theorem C6_eval :
    dsF.search "S" = Except.ok ["9"] ∧
    dsF.fetch "9" = Except.ok (GeneRecord.mk true ["S"] []) ∧
    (runGenes dsF ["S"]).genesNone = ["S"] ∧
    (runGenes dsF ["S"]).disc1 = [] ∧
    (runGenes dsF ["S"]).geneIdDict = [] ∧
    (runGenes dsF ["S"]).outcomes = [("S", GeneOutcome.failure nameErrorMsg)] := by
  decide

/-- C7: resolving S (sole discontinued candidate) against the unchanged
data source dsG gives different recorded outcomes depending on which
symbols were resolved before it: alone, S raises NameError and lands in
genes_None; after the multi-candidate symbol M has bound check_gene_id, S
lands in the discontinued-specific list.  Per-symbol outcomes therefore do
depend on state left by prior resolutions, against the claim; the
spec-described history-free behaviour is what the code minus the
check_gene_id slip would do. -/
theorem C7_eval :
    (runGenes dsG ["S"]).genesNone = ["S"] ∧
    (runGenes dsG ["S"]).disc1 = [] ∧
    (runGenes dsG ["S"]).outcomes = [("S", GeneOutcome.failure nameErrorMsg)] ∧
    (runGenes dsG ["M", "S"]).genesNone = [] ∧
    (runGenes dsG ["M", "S"]).disc1 = [("S", "9")] ∧
    (runGenes dsG ["M", "S"]).outcomes =
      [("M", GeneOutcome.resolved "1"), ("S", GeneOutcome.soleDiscontinued "9")] := by
  decide

/-- C8: a failure while resolving one symbol (exhausted retries, a parse
failure, or the NameError) is recorded for that symbol in genes_None, and
the run still attempts every input symbol exactly once, in order: the
outcome trace lists exactly the input symbols. -/
theorem C8_per_symbol (ds : DataSource) (genes : List String)
    (p : String × GeneOutcome) (hp : p ∈ (runGenes ds genes).outcomes)
    (hfail : isFailureOutcome p.2 = true) :
    ((runGenes ds genes).outcomes).map Prod.fst = genes ∧
      p.1 ∈ (runGenes ds genes).genesNone := by
  constructor
  . have h := map_fst_outcomes_run ds genes initState
    simpa [runGenes, initState] using h
  . exact run_failRecorded ds genes initState (by simp [initState]) p hp hfail

/-- C8 witness: on dsH with inputs A, B, C, the search for B exhausts its
retries; B is recorded in genes_None and both A and C are still attempted. -/
theorem C8_witness :
    ((runGenes dsH ["A", "B", "C"]).outcomes).map Prod.fst =
        ["A", "B", "C"] ∧
      "B" ∈ (runGenes dsH ["A", "B", "C"]).genesNone :=
  C8_per_symbol dsH ["A", "B", "C"] ("B", GeneOutcome.failure "ExhaustedRetries")
    (by decide) (by decide)

/-- C9: after a run, a symbol recorded in the resolved mapping gene_id_dict
is in neither unresolved list (genes_None or the sole-discontinued list):
whether a symbol resolves is independent of the leaked check_gene_id
binding, so no symbol can be recorded on both sides. -/
theorem C9_disjoint (ds : DataSource) (genes : List String) (g : String)
    (hg : g ∈ ((runGenes ds genes).geneIdDict).map Prod.fst) :
    g ∉ (runGenes ds genes).genesNone ∧
      g ∉ ((runGenes ds genes).disc1).map Prod.fst := by
  obtain ⟨h1, h2, h3⟩ := run_okInv ds genes
  obtain ⟨p, hp, hpe⟩ := List.mem_map.mp hg
  have hres : resolves ds g = true := hpe ▸ h1 p hp
  constructor
  . intro hmem
    have hfalse := h2 g hmem
    rw [hres] at hfalse
    exact absurd hfalse (by simp)
  . intro hmem
    obtain ⟨q, hq, hqe⟩ := List.mem_map.mp hmem
    have hfalse := h3 q hq
    rw [hqe, hres] at hfalse
    exact absurd hfalse (by simp)

/-- C9 witness: in the dsH run, A is resolved and appears in neither
unresolved list. -/
theorem C9_witness :
    "A" ∉ (runGenes dsH ["A", "B", "C"]).genesNone ∧
      "A" ∉ ((runGenes dsH ["A", "B", "C"]).disc1).map Prod.fst :=
  C9_disjoint dsH ["A", "B", "C"] "A" (by decide)

/-- C10: if every symbol before sym produced at most one candidate (so the
multi-candidate loop never ran and check_gene_id is unbound), and sym has
exactly one candidate whose record is discontinued, then the
single-candidate-discontinued branch raises the NameError, sym falls to the
generic per-symbol exception handler, is recorded in genes_None with the
NameError as its outcome, and the discontinued-specific list stays empty. -/
theorem C10_nameError (ds : DataSource) (pre : List String) (sym c : String)
    (rec : GeneRecord)
    (hpre : ∀ g, g ∈ pre -> ∀ ids, ds.search g = Except.ok ids ->
      ids.length ≤ 1)
    (hsearch : ds.search sym = Except.ok [c])
    (hfetch : ds.fetch c = Except.ok rec) (hdisc : rec.discontinued = true) :
    sym ∈ (runGenes ds (pre ++ [sym])).genesNone ∧
      (runGenes ds (pre ++ [sym])).disc1 = [] ∧
      (sym, GeneOutcome.failure nameErrorMsg) ∈
        (runGenes ds (pre ++ [sym])).outcomes := by
  have hrun := run_lastCheck_none ds pre initState rfl hpre
  have hfold : runGenes ds (pre ++ [sym]) =
      step ds (pre.foldl (step ds) initState) sym := by
    simp [runGenes, List.foldl_append]
  have hout : (resolveGene ds (pre.foldl (step ds) initState).lastCheck
      sym).outcome = GeneOutcome.failure nameErrorMsg := by
    rw [hrun.1]
    simp [resolveGene, hsearch, hfetch, hdisc]
  refine ⟨?_, ?_, ?_⟩
  . rw [hfold]
    rcases hstep : (resolveGene ds (pre.foldl (step ds) initState).lastCheck
        sym).outcome with gid | _ | gid | e
    . rw [hstep] at hout
      exact absurd hout (by simp)
    . rw [hstep] at hout
      exact absurd hout (by simp)
    . rw [hstep] at hout
      exact absurd hout (by simp)
    . simp [step, hstep]
  . rw [hfold]
    rcases hstep : (resolveGene ds (pre.foldl (step ds) initState).lastCheck
        sym).outcome with gid | _ | gid | e
    . rw [hstep] at hout
      exact absurd hout (by simp)
    . rw [hstep] at hout
      exact absurd hout (by simp)
    . rw [hstep] at hout
      exact absurd hout (by simp)
    . simp [step, hstep]
      exact hrun.2.trans (by simp [initState])
  . rw [hfold, step_outcomes, hout]
    simp

/-- C10 witness: on dsJ, P (one healthy candidate) precedes S (one
discontinued candidate); S is recorded in genes_None with the NameError
and the discontinued-specific list is empty. -/
theorem C10_witness :
    "S" ∈ (runGenes dsJ (["P"] ++ ["S"])).genesNone ∧
      (runGenes dsJ (["P"] ++ ["S"])).disc1 = [] ∧
      ("S", GeneOutcome.failure nameErrorMsg) ∈
        (runGenes dsJ (["P"] ++ ["S"])).outcomes :=
  C10_nameError dsJ ["P"] "S" "9" (GeneRecord.mk true ["S"] [])
    (by
      intro g hg ids hids
      have hgp : g = "P" := by simpa using hg
      rw [hgp] at hids
      have h5 : dsJ.search "P" = Except.ok ["5"] := by decide
      rw [h5] at hids
      have : (["5"] : List String) = ids := by simpa using hids
      rw [← this]
      decide)
    (by decide) (by decide) rfl

end GeneToId
